import Mathlib

/-!
Shallow embedding of the RealDebrid search module (`src/unnamed/part_000`) and of the
persistent cache store (`src/lib/common/mongo-cache.js`) of the
stremio-addon-debrid-search repository.  JavaScript values are modelled with
`Option`/`Nat`/`Int`; asynchronous provider and scraper calls are modelled by
environment oracles plus explicit call counters, so that "how many external calls were
made" is part of the function's result.  Utility modules that the repository imports
but that are not part of the sources (`common/torrent-utils.js`, `config.js`,
`common/debrid-cache-processor.js`, the title parser) are either modelled from the
spec (marked as such) or passed in as explicit function parameters.
-/

namespace DebridSearch

/-- `String.toLowerCase()` on ASCII, written over the character list so that it
evaluates inside the kernel. -/
def jsToLower (s : String) : String := String.mk (s.data.map Char.toLower)

/-- `String.endsWith(post)`, written over the character lists. -/
def strEndsWith (s post : String) : Bool :=
  let n := s.data.length
  let m := post.data.length
  if m ≤ n then s.data.drop (n - m) == post.data else false

/-- Whether `sub` occurs as a contiguous sublist of `l`. -/
def listContainsSub (l sub : List Char) : Bool :=
  match l with
  | [] => sub.isEmpty
  | _ :: rest => (sub == l.take sub.length) || listContainsSub rest sub

/-- Whether `sub` occurs as a substring of `s`. -/
def containsSub (s sub : String) : Bool := listContainsSub s.data sub.data

/-- `String.split(c)` on a single-character separator. -/
def splitCharAux (c : Char) : List Char → List Char → List String
  | [], acc => [String.mk acc.reverse]
  | x :: rest, acc =>
    if x = c then String.mk acc.reverse :: splitCharAux c rest []
    else splitCharAux c rest (x :: acc)

/-- `String.split(c)` on a single-character separator. -/
def jsSplitChar (c : Char) (s : String) : List String := splitCharAux c s.data []

/-- JavaScript `a || b` on optional strings: an absent (`none`) or empty string is falsy. -/
def strOr (a b : Option String) : Option String :=
  match a with
  | some s => if s = "" then b else some s
  | none => b

/-- JavaScript `a || d` on optional strings with a string default. -/
def strOrD (a : Option String) (d : String) : String :=
  match a with
  | some s => if s = "" then d else s
  | none => d

/-- JavaScript `a || b` on non-negative numbers, where 0 is falsy. -/
def natOr (a b : Nat) : Nat := if a = 0 then b else a

/-- JavaScript string interpolation of a possibly-undefined value. -/
def jsStr (o : Option String) : String := o.getD "undefined"

/-- JavaScript strict equality between two number-valued expressions, where `none`
models `NaN`/`undefined` (never equal to anything, including itself in the `NaN` case;
the call sites compare a parsed field against a number-or-`NaN`, so `none === none`
is never the JavaScript `undefined === undefined` case). -/
def jsEqNum (a b : Option Int) : Bool :=
  match a, b with
  | some x, some y => x == y
  | _, _ => false

/-- One entry of the provider's torrent file listing, as returned by `torrents.info`. -/
structure RdFile where
  path : String
  bytes : Nat
  selected : Bool := true
  id : Nat := 0
deriving Repr, DecidableEq

/-- The junk extension list of the live-check handler (`part_000`, line 481). -/
def JUNK_EXTENSIONS : List String := [".iso", ".exe", ".zip", ".rar", ".7z", ".scr"]

/-- Modelled from the spec: `isValidVideo` lives in `common/torrent-utils.js`, which is
not among the sources.  The spec defines the plausible-video predicate as "extension in
a known video-extension set AND size above a configurable minimum, default 50 MiB". -/
def VIDEO_EXTENSIONS : List String :=
  [".mkv", ".mp4", ".avi", ".mov", ".wmv", ".flv", ".webm", ".m4v", ".mpg", ".mpeg", ".ts"]

/-- Modelled from the spec (see `VIDEO_EXTENSIONS`). -/
def isValidVideo (path : String) (bytes : Nat) (minBytes : Nat) : Bool :=
  VIDEO_EXTENSIONS.any (fun ext => strEndsWith (jsToLower path) ext) && decide (minBytes < bytes)

/-- Whether a listed file has a junk extension (`JUNK_EXTENSIONS.some(ext => f.path.toLowerCase().endsWith(ext))`). -/
def hasJunkExt (f : RdFile) : Bool :=
  JUNK_EXTENSIONS.any (fun ext => strEndsWith (jsToLower f.path) ext)

/-- The provider statuses treated as terminal success (`['downloaded', 'finished']`). -/
def TERMINAL_STATUSES : List String := ["downloaded", "finished"]

/-- Outcome of one `rdHandler.liveCheckHash` call: the boolean classification, the
number of provider status reads (`torrents.info`) made, and whether the file listing
was inspected. -/
structure LiveCheckOutcome where
  result : Bool
  infoCalls : Nat
  inspectedFiles : Bool
deriving Repr, DecidableEq

/-- `rdHandler.liveCheckHash` from `searchRealDebridTorrents` (`part_000`, lines
462-505): add the magnet (an absent provider id fails immediately), select all files,
make a single status read, and classify from the file listing.  `addId` is the
provider's add-magnet response id, `status` and `files` come from the single
`torrents.info` read. -/
def liveCheckHash (addId : Option String) (status : String) (files : List RdFile) :
    LiveCheckOutcome :=
  match addId with
  | none => ⟨false, 0, false⟩
  | some _ =>
    if ¬ (TERMINAL_STATUSES.contains status) then ⟨false, 1, false⟩
    else
      let hasJunk := files.any hasJunkExt
      let hasVideo := files.any (fun f => isValidVideo f.path f.bytes (50 * 1024 * 1024))
      if ¬ hasVideo then ⟨false, 1, true⟩
      else if hasJunk then ⟨false, 1, true⟩
      else ⟨true, 1, true⟩

/-- Modelled from the spec: `getResolutionFromName` lives in `common/torrent-utils.js`
(not among the sources); it names the resolution tier appearing in a title, with an
"unknown" marker when none appears. -/
def getResolutionFromName (name : String) : String :=
  let n := jsToLower name
  if containsSub n "2160p" then "2160p"
  else if containsSub n "4k" then "2160p"
  else if containsSub n "1080p" then "1080p"
  else if containsSub n "720p" then "720p"
  else if containsSub n "480p" then "480p"
  else "unknown"

/-- Modelled from the spec: `resolutionOrder` (`common/torrent-utils.js`, not among the
sources) is "a fixed resolution-rank table (unknown resolution ranks lowest)". -/
def resolutionOrder (res : String) : Nat :=
  if res = "2160p" then 4
  else if res = "1080p" then 3
  else if res = "720p" then 2
  else if res = "480p" then 1
  else 0

/-- The rank used by the final sort: table rank of the resolution parsed from the name. -/
def resRankOfName (name : String) : Nat := resolutionOrder (getResolutionFromName name)

/-- Episode hint attached by pack inspection (`episodeFileHint`). -/
structure EpisodeHint where
  filePath : String
  fileBytes : Nat
  torrentId : String
  fileId : Nat
deriving Repr, DecidableEq

/-- A duck-typed candidate record as passed around the search pipeline: personal files
use `name`/`size`/`hash`, external results use `Title`/`Size`/`InfoHash`; absent
JavaScript fields are `none` (for numeric fields the pipeline only ever reads them
through `|| 0`, so they are modelled as plain `Nat` with 0 for absent). -/
structure Cand where
  Title : Option String := none
  name : Option String := none
  Size : Nat := 0
  size : Nat := 0
  filesize : Nat := 0
  Seeders : Nat := 0
  InfoHash : Option String := none
  hash : Option String := none
  Tracker : Option String := none
  isPersonal : Bool := false
  isCached : Bool := false
  isFromPack : Bool := false
  packHash : Option String := none
  episodeFileHint : Option EpisodeHint := none
  searchableName : Option String := none
  category : Option String := none
  resolution : Option String := none
deriving Repr, DecidableEq

/-- The canonical output record built by `formatCachedResult` (`part_000`, lines
146-189).  Fields produced by the external title parser (`info`) and the language
tags are omitted: nothing downstream of the embedding reads them. -/
structure FormattedResult where
  name : String
  size : Nat
  seeders : Nat
  url : String
  sourceTag : String
  hash : String
  tracker : String
  isPersonal : Bool
  isCached : Bool
deriving Repr, DecidableEq

/-- Stand-in for `Buffer.from(JSON.stringify(hintPayload)).toString('base64')`: the
exact base64/JSON serialization is irrelevant to every claim, so the payload is
rendered as a plain delimited string. -/
def encodeHint (hashLower : String) (h : EpisodeHint) : String :=
  hashLower ++ "|" ++ h.filePath ++ "|" ++ toString h.fileBytes ++ "|" ++ h.torrentId
    ++ "|" ++ toString h.fileId

/-- `formatCachedResult(torrent, isCached)` (`part_000`, lines 146-189). -/
def formatCachedResult (t : Cand) (isCached : Bool) : FormattedResult :=
  let episodeHint := t.episodeFileHint
  let definitiveTitle :=
    strOrD (strOr (strOr (episodeHint.map (·.filePath)) t.Title) t.name) "Unknown Title"
  let definitiveSize :=
    match episodeHint with
    | some h => if 0 < h.fileBytes then h.fileBytes else natOr t.Size (natOr t.size t.filesize)
    | none => natOr t.Size (natOr t.size t.filesize)
  let url :=
    if t.isPersonal then "magnet:?xt=urn:btih:" ++ jsStr t.hash
    else
      let baseMagnet := "magnet:?xt=urn:btih:" ++ jsStr t.InfoHash
      match episodeHint, t.InfoHash with
      | some h, some ih =>
        if ih = "" then baseMagnet
        else baseMagnet ++ "||HINT||" ++ encodeHint (jsToLower ih) h
      | _, _ => baseMagnet
  { name := definitiveTitle
    size := definitiveSize
    seeders := t.Seeders
    url := url
    sourceTag := "realdebrid"
    hash := jsToLower (strOrD (strOr t.InfoHash t.hash) "")
    tracker := strOrD t.Tracker (if t.isPersonal then "Personal" else "Cached")
    isPersonal := t.isPersonal
    isCached := isCached }

/-- The comparator of the final sort (`part_000`, lines 642-647), phrased as a
"sorts-no-later-than" boolean: ranks descending, ties broken by size descending. -/
def rdSortLE (a b : FormattedResult) : Bool :=
  let rankA := resRankOfName a.name
  let rankB := resRankOfName b.name
  if rankA ≠ rankB then decide (rankB ≤ rankA) else decide (b.size ≤ a.size)

/-- `rdSortLE` as a decidable relation. -/
def rdLE (a b : FormattedResult) : Prop := rdSortLE a b = true

instance : DecidableRel rdLE := fun a b => instDecidableEqBool (rdSortLE a b) true

/-- The final sort `allResults.sort(...)`: a stable sort under the comparator
(ECMAScript requires `Array.prototype.sort` to be stable, and the comparator is a
consistent total preorder, which pins the result down uniquely; insertion sort is a
stable sort, so it computes the same list). -/
def sortResults (l : List FormattedResult) : List FormattedResult := l.insertionSort rdLE

/-- The high-quality category set of the quota gate (`part_000`, line 328). -/
def HQ_CATEGORIES : List String := ["Remux", "BluRay", "WEB/WEB-DL"]

/-- The high-resolution tier set of the quota gate (`part_000`, line 329). -/
def HQ_RES : List String := ["2160p", "1080p"]

/-- The `personalHighResSatisfied` quota gate (`part_000`, lines 331-335): every
high-quality category whose configured limit is a positive number must have a
per-resolution count meeting the limit at each of the 2160p and 1080p tiers.
`limits cat = none` models an absent or non-numeric limit entry (the code's
`typeof limit !== 'number'` guard). -/
def isHighResSatisfied (limits : String → Option Int) (counts : String → String → Nat) :
    Bool :=
  HQ_CATEGORIES.all fun cat =>
    match limits cat with
    | none => true
    | some limit =>
      if limit ≤ 0 then true
      else HQ_RES.all fun res => decide (limit ≤ (counts cat res : Int))

/-- One `set` step of a JavaScript `Map` built from key/value pairs: an existing key
has its value replaced in place, a new key is appended (`part_000`, line 194 builds
`new Map(externalTorrents.map(t => [t.InfoHash?.toLowerCase(), t]))`). -/
def jsMapInsert (acc : List (Option String × Cand)) (k : Option String) (v : Cand) :
    List (Option String × Cand) :=
  if acc.any (fun p => p.1 == k) then
    acc.map (fun p => if p.1 == k then (k, v) else p)
  else acc ++ [(k, v)]

/-- The entry list of `new Map(pairs)`: keys in first-insertion order, each key bound
to the value of its **last** occurrence among `pairs`. -/
def jsMapEntries (l : List (Option String × Cand)) : List (Option String × Cand) :=
  l.foldl (fun acc kv => jsMapInsert acc kv.1 kv.2) []

/-- `combineAndMarkResults` (`part_000`, lines 191-203): mark personal files, flatten
the external producer outputs, deduplicate by lowercased infohash through JavaScript
`Map` semantics, drop candidates with an absent/empty hash or a hash already among the
personal ones, and keep only candidates passing the title validity predicate
(`isValidTorrentTitle` comes from `common/torrent-utils.js`, which is not among the
sources, and is therefore a parameter). -/
def combineAndMarkResults (personalFiles : List Cand) (externalSources : List (List Cand))
    (isValidTorrentTitle : Option String → Bool) : List Cand :=
  let markedPersonal :=
    personalFiles.map (fun f => { f with isPersonal := true, Tracker := some "Personal" })
  let externalTorrents := externalSources.flatten.map (fun t => { t with isPersonal := false })
  let uniqueExternalTorrents :=
    (jsMapEntries (externalTorrents.map (fun t => (t.InfoHash.map jsToLower, t)))).map
      Prod.snd
  let personalHashes :=
    (personalFiles.filterMap (fun f => f.hash.map jsToLower)).filter (fun h => h ≠ "")
  let newExternalTorrents := uniqueExternalTorrents.filter (fun t =>
    match t.InfoHash with
    | some ih => ih ≠ "" && ¬ (personalHashes.contains (jsToLower ih))
    | none => false)
  let validTitleResults := newExternalTorrents.filter (fun t => isValidTorrentTitle t.Title)
  markedPersonal ++ validTitleResults

/-!  Pack inspection (`rdHandler.batchCheckSeasonPacks`, `part_000`, lines 506-562). -/

/-- Parsed title fields used by the pipeline.  `PTT.parse` is an external parser
(`util/parse-torrent-title.js`, not among the sources), so its per-title output is
supplied by the environment.  `episode` distinguishes a single number from the array
the parser produces for multi-episode titles; `seasons` records whether a truthy
`seasons` field is present. -/
inductive EpField where
  | noEp : EpField
  | num : Int → EpField
  | arr : List Int → EpField
deriving Repr, DecidableEq

structure ParsedSE where
  season : Option Int := none
  episode : EpField := .noEp
  seasons : Bool := false
deriving Repr, DecidableEq

/-- Provider-side outcome of handling one pack hash: an exception at any step, an
add-magnet response without an id, torrent info without a file listing, or a file
listing (with the provider filename and torrent id).  Whether the torrent already
existed in the account only changes which provider calls are made, not the returned
data, so it is folded into the `files` case. -/
inductive PackFetch where
  | throws : PackFetch
  | noId : PackFetch
  | noFiles : PackFetch
  | files : String → String → List RdFile → PackFetch
deriving Repr

/-- Environment for pack inspection: the provider outcome per hash and the external
title parser's output per file path. -/
structure PackEnv where
  fetch : String → PackFetch
  parseSE : String → ParsedSE

/-- Running state of the pack-inspection loop: the `packResults` entries in insertion
order, the `failedPackHashes` set, and the hashes whose loop body actually ran. -/
structure PackState where
  results : List (String × Cand) := []
  failed : List String := []
  examined : List String := []
deriving Repr

/-- The first listed file of maximal byte size
(`matchingFiles.sort((a, b) => b.bytes - a.bytes)[0]` under a stable sort). -/
def chooseLargest (f0 : RdFile) (fs : List RdFile) : RdFile :=
  fs.foldl (fun best f => if best.bytes < f.bytes then f else best) f0

/-- Whether a listed file of a pack matches the target episode: junk extensions are
rejected, then the parsed season/episode must strictly equal the target
(`parsed.season === season && parsed.episode === episode`; an absent or array-valued
episode field never strictly equals a number). -/
def packFileMatches (env : PackEnv) (season episode : Int) (f : RdFile) : Bool :=
  if hasJunkExt f then false
  else
    let parsed := env.parseSE f.path
    jsEqNum parsed.season (some season) &&
      (match parsed.episode with
       | .num n => jsEqNum (some n) (some episode)
       | _ => false)

/-- The per-hash loop of `batchCheckSeasonPacks`: stops as soon as `inspectedCount`
reaches the cap, counts a pack as inspected only when it yields a matching file, and
converts per-hash exceptions into `failedPackHashes` entries rather than aborting. -/
def packLoop (env : PackEnv) (maxPacks : Nat) (season episode : Int) :
    List String → Nat → PackState → PackState
  | [], _, st => st
  | h :: rest, count, st =>
    if maxPacks ≤ count then st
    else
      let st1 : PackState := { st with examined := st.examined ++ [h] }
      match env.fetch h with
      | .throws =>
        packLoop env maxPacks season episode rest count
          { st1 with failed := st1.failed ++ [jsToLower h] }
      | .noId => packLoop env maxPacks season episode rest count st1
      | .noFiles => packLoop env maxPacks season episode rest count st1
      | .files filename torrentId fs =>
        match fs.filter (packFileMatches env season episode) with
        | [] => packLoop env maxPacks season episode rest count st1
        | f0 :: fsRest =>
          let bestFile := chooseLargest f0 fsRest
          let episodeResult : Cand :=
            { InfoHash := some h
              Title := some bestFile.path
              name := some bestFile.path
              Size := bestFile.bytes
              size := bestFile.bytes
              Seeders := 0
              Tracker := some "Pack Inspection"
              episodeFileHint :=
                some ⟨bestFile.path, bestFile.bytes, torrentId, bestFile.id⟩
              isCached := true
              isFromPack := true
              packHash := some h
              searchableName := some filename }
          packLoop env maxPacks season episode rest (count + 1)
            { st1 with results := st1.results ++ [(h, episodeResult)] }

/-- The effective cap: `config.MAX_PACKS_TO_INSPECT || 3` (`config.js` is not among
the sources, so the configured value is a parameter; `none` or 0 falls back to the
default 3). -/
def packCap (cfg : Option Nat) : Nat :=
  match cfg with
  | some n => if n = 0 then 3 else n
  | none => 3

/-- `rdHandler.batchCheckSeasonPacks(hashes, season, episode)` (`part_000`, lines
506-562). -/
def batchCheckSeasonPacks (env : PackEnv) (cfgMax : Option Nat) (season episode : Int)
    (hashes : List String) : PackState :=
  packLoop env (packCap cfgMax) season episode hashes 0 {}

/-!  The persistent cache store (`src/lib/common/mongo-cache.js`).  Timestamps
(`createdAt`/`updatedAt`/`expiresAt`) are omitted: `records` stands for the
non-expired documents of the collection, which is how every read models TTL expiry. -/

/-- One stored document (`CacheRecord` of the spec). -/
structure CacheRecord where
  service : String
  hash : String
  fileName : Option String := none
  sizeBytes : Option Int := none
  releaseKey : Option String := none
  category : Option String := none
  resolution : Option String := none
deriving Repr, DecidableEq

/-- The store: the enablement flag (`MONGO_CACHE_ENABLED && MONGO_URI`) and the
non-expired documents. -/
structure MongoState where
  enabled : Bool
  records : List CacheRecord := []
deriving Repr, DecidableEq

/-- Input record of an upsert, with possibly-missing fields. -/
structure UpsertIn where
  service : Option String := none
  hash : Option String := none
  fileName : Option String := none
  sizeBytes : Option Int := none
  releaseKey : Option String := none
  category : Option String := none
  resolution : Option String := none
deriving Repr, DecidableEq

/-- The document written by an upsert for normalized `(service, hash)`. -/
def mkCacheRecord (service hash : String) (r : UpsertIn) : CacheRecord :=
  { service := service
    hash := hash
    fileName := r.fileName
    sizeBytes := r.sizeBytes
    releaseKey := r.releaseKey
    category := r.category
    resolution := r.resolution }

/-- `updateOne({service, hash}, ..., {upsert: true})`: replace the document with the
matching key, or append a new one. -/
def upsertRecord (records : List CacheRecord) (service hash : String) (r : UpsertIn) :
    List CacheRecord :=
  if records.any (fun d => d.service == service && d.hash == hash) then
    records.map (fun d =>
      if d.service == service && d.hash == hash then mkCacheRecord service hash r else d)
  else records ++ [mkCacheRecord service hash r]

/-- `upsertCachedMagnet(record)` (`mongo-cache.js`, lines 47-87): returns the success
boolean together with the new store.  `transportFails` models the underlying transport
throwing during the write, which the function catches and converts into `false`. -/
def upsertCachedMagnet (st : MongoState) (transportFails : Bool) (record : UpsertIn) :
    Bool × MongoState :=
  if ¬ st.enabled then (false, st)
  else
    let service := jsToLower (record.service.getD "")
    let hash := jsToLower (record.hash.getD "")
    if service = "" ∨ hash = "" then (false, st)
    else if transportFails then (false, st)
    else (true, { st with records := upsertRecord st.records service hash record })

/-- `upsertCachedMagnets(records)` (`mongo-cache.js`, lines 90-136): the batched
variant skips malformed entries rather than failing the batch; a `none` argument
models a non-array input. -/
def upsertCachedMagnets (st : MongoState) (transportFails : Bool)
    (records : Option (List UpsertIn)) : Bool × MongoState :=
  match records with
  | none => (false, st)
  | some rs =>
    if ¬ st.enabled ∨ rs.isEmpty then (false, st)
    else
      let wellFormed := rs.filter (fun r =>
        jsToLower (r.service.getD "") ≠ "" && jsToLower (r.hash.getD "") ≠ "")
      if wellFormed.isEmpty then (true, st)
      else if transportFails then (false, st)
      else
        (true,
          { st with
            records := wellFormed.foldl (fun recs r =>
              upsertRecord recs (jsToLower (r.service.getD "")) (jsToLower (r.hash.getD "")) r)
              st.records })

/-- `getCachedHashes(service, hashes)` (`mongo-cache.js`, lines 139-167): the returned
set is modelled as a deduplicated list.  A `none` argument models a non-array input. -/
def getCachedHashes (st : MongoState) (service : String) (hashes : Option (List String)) :
    List String :=
  if ¬ st.enabled then []
  else
    match hashes with
    | none => []
    | some hs =>
      if hs.isEmpty then []
      else
        let lower := (hs.map jsToLower).filter (fun h => h ≠ "")
        if lower.isEmpty then []
        else
          ((st.records.filter (fun r =>
              r.service == jsToLower service && lower.contains r.hash)).map
            (fun r => r.hash)).dedup

/-- `getCachedRecord(service, hash)` (`mongo-cache.js`, lines 169-180). -/
def getCachedRecord (st : MongoState) (service hash : String) : Option CacheRecord :=
  if ¬ st.enabled then none
  else st.records.find? (fun r => r.service == jsToLower service && r.hash == jsToLower hash)

/-- The release-level aggregate (`QuotaCounts` of the spec). -/
structure ReleaseCounts where
  byCategory : String → Nat
  byCategoryResolution : String → String → Nat
  total : Nat

/-- The all-zero aggregate returned when the store is disabled or the query fails. -/
def emptyCounts : ReleaseCounts :=
  { byCategory := fun _ => 0, byCategoryResolution := fun _ _ => 0, total := 0 }

/-- `getReleaseCounts(service, releaseKey)` (`mongo-cache.js`, lines 184-212):
per-category and per-category-and-resolution counts over the documents sharing the
release key, falling back to `Other`/`unknown` for absent metadata.  `transportFails`
models the cursor throwing, which the function catches into the empty aggregate. -/
def getReleaseCounts (st : MongoState) (transportFails : Bool)
    (service releaseKey : String) : ReleaseCounts :=
  if ¬ st.enabled then emptyCounts
  else if service = "" ∨ releaseKey = "" then emptyCounts
  else if transportFails then emptyCounts
  else
    let docs := st.records.filter (fun r =>
      r.service == jsToLower service && r.releaseKey == some releaseKey)
    { byCategory := fun cat => docs.countP (fun r => strOrD r.category "Other" == cat)
      byCategoryResolution := fun cat res => docs.countP (fun r =>
        strOrD r.category "Other" == cat && strOrD r.resolution "unknown" == res)
      total := docs.length }

/-!  The comprehensive search (`searchRealDebridTorrents`, `part_000`, lines 224-660).
The asynchronous collaborators are folded into a `SearchEnv` of oracles, and the
returned `SearchTrace` carries explicit counters for the external calls the claims
reason about (metadata lookups, personal-library fetches, producer/scraper
invocations, live verification calls). -/

/-- A JavaScript value as received for the `id` argument. -/
inductive JSVal where
  | null : JSVal
  | undef : JSVal
  | str : String → JSVal
  | num : Int → JSVal
  | boolean : Bool → JSVal
deriving Repr, DecidableEq

/-- The ten producer enablement flags read from `config.js` (not among the sources). -/
structure ScraperFlags where
  bitmagnet : Bool := false
  jackett : Bool := false
  torrentio : Bool := false
  zilean : Bool := false
  comet : Bool := false
  stremthru : Bool := false
  bt4g : Bool := false
  torrentGalaxy : Bool := false
  torrentDownload : Bool := false
  snowfl : Bool := false
deriving Repr, DecidableEq

/-- How many producer invocations one pass over the flag list performs. -/
def ScraperFlags.count (f : ScraperFlags) : Nat :=
  [f.bitmagnet, f.jackett, f.torrentio, f.zilean, f.comet, f.stremthru, f.bt4g,
    f.torrentGalaxy, f.torrentDownload, f.snowfl].countP id

/-- The metadata record returned by `Cinemeta.getMeta`; `year = 0` models a falsy year. -/
structure CinemetaMeta where
  name : String
  year : Nat := 0
deriving Repr, DecidableEq

/-- The per-category limits (`rdQualityLimits`, `part_000`, lines 318-326), already
resolved from environment variables with their documented defaults. -/
structure QualityLimits where
  remux : Int := 2
  bluray : Int := 2
  webdl : Int := 2
  webrip : Int := 1
  audio : Int := 1
  other : Int := 10
deriving Repr, DecidableEq

/-- Key lookup on the `rdQualityLimits` object; unknown categories are absent. -/
def QualityLimits.lookup (q : QualityLimits) : String → Option Int := fun cat =>
  if cat = "Remux" then some q.remux
  else if cat = "BluRay" then some q.bluray
  else if cat = "WEB/WEB-DL" then some q.webdl
  else if cat = "BRRip/WEBRip" then some q.webrip
  else if cat = "Audio-Focused" then some q.audio
  else if cat = "Other" then some q.other
  else none

/-- Decimal digit-run value. -/
def digitsVal (cs : List Char) : Option Int :=
  let ds := cs.takeWhile Char.isDigit
  if ds.isEmpty then none
  else some (ds.foldl (fun acc c => acc * 10 + (Int.ofNat (c.toNat - '0'.toNat))) 0)

/-- JavaScript `parseInt(s, 10)`: longest signed decimal digit run after trimming,
`none` for `NaN`. -/
def parseIntJS (s : String) : Option Int :=
  match s.data.dropWhile Char.isWhitespace with
  | '-' :: rest => (digitsVal rest).map (fun n => -n)
  | '+' :: rest => digitsVal rest
  | rest => digitsVal rest

/-- `String(n).padStart(2, '0')` for a number-or-`NaN`. -/
def padStart2 (s : String) : String :=
  if s.length ≥ 2 then s else if s.length = 1 then "0" ++ s else "00"

/-- `String(x)` for a number-or-`NaN`. -/
def jsNumStr (o : Option Int) : String :=
  match o with
  | some n => toString n
  | none => "NaN"

/-- `makeReleaseKey(type, imdbId, season, episode)` (`part_000`, lines 1112-1117);
`ei` is the `episodeInfo` object (`none` when absent, season/episode possibly `NaN`). -/
def makeReleaseKey (type imdbId : String) (ei : Option (Option Int × Option Int)) :
    String :=
  match ei with
  | some (s, e) =>
    if type = "series" then
      type ++ ":" ++ imdbId ++ ":S" ++ padStart2 (jsNumStr s) ++ "E" ++ padStart2 (jsNumStr e)
    else type ++ ":" ++ imdbId
  | none => type ++ ":" ++ imdbId

/-- Combined quota object handed to `processAndFilterTorrents`. -/
structure Quotas where
  byCategory : String → Nat
  byCategoryResolution : String → String → Nat

/-- Environment of one comprehensive search.  Function-valued fields stand for
collaborators whose code is outside the sources (`PTT.parse`, the torrent-utils
helpers, `processAndFilterTorrents`) or for the provider's responses; list fields are
the values the asynchronous calls would deliver. -/
structure SearchEnv where
  /-- `Cinemeta.getMeta(type, imdbId)` result. -/
  meta : Option CinemetaMeta
  /-- `searchPersonalFiles` result (already fuzzy-matched personal candidates). -/
  personalFiles : List Cand
  /-- The cache store. -/
  mongo : MongoState
  /-- Whether store reads fail at the transport level during this search. -/
  mongoTxFail : Bool := false
  /-- `PTT.parse` on a title or file path. -/
  parse : String → ParsedSE
  /-- The regex title classifier `getQualityCategory` (`part_000`, lines 23-47),
  treated as an opaque classifier: no claim depends on its regex internals, only on
  the counts its outputs induce. -/
  qualityCategory : String → String
  flags : ScraperFlags := {}
  limits : QualityLimits := {}
  /-- The joint producer outputs (`await Promise.all(scraperPromises)` flattened per
  producer call). -/
  scraperOutputs : List (List Cand) := []
  /-- `isValidTorrentTitle` (torrent-utils, not among the sources). -/
  isValidTorrentTitle : Option String → Bool := fun _ => true
  /-- `isSeriesLikeTitle` (torrent-utils, not among the sources). -/
  isSeriesLikeTitle : String → Bool := fun _ => false
  /-- `filterByYear(torrent, cinemetaDetails)` (torrent-utils, not among the sources). -/
  filterByYear : Cand → Bool := fun _ => true
  /-- `matchesCandidateTitle` with the series context (episodeMatcher, not among the
  sources). -/
  matchesCandidateTitle : Cand → Bool := fun _ => true
  /-- `processAndFilterTorrents(externalTorrents, rdHandler, episodeInfo, quotas)`
  (`common/debrid-cache-processor.js`, not among the sources): the cached results it
  returns. -/
  papft : List Cand → Quotas → List Cand := fun _ _ => []
  /-- The number of live verification calls `processAndFilterTorrents` performs. -/
  papftLiveChecks : Nat := 0
  /-- Provider add-magnet response id per hash. -/
  addResult : String → Option String := fun _ => none
  /-- Provider torrent status per hash. -/
  statusOf : String → String := fun _ => "unknown"
  /-- Provider file listing per hash. -/
  filesOf : String → List RdFile := fun _ => []

/-- The observable outcome of one search: counts of external calls plus the returned
stream list. -/
structure SearchTrace where
  metaCalls : Nat := 0
  personalFetches : Nat := 0
  scraperCalls : Nat := 0
  liveCheckCalls : Nat := 0
  results : List FormattedResult := []
deriving Repr, DecidableEq

/-- Truthiness of an optional string. -/
def truthyStr (o : Option String) : Bool :=
  match o with
  | some s => s ≠ ""
  | none => false

/-- The `episodeInfo` object (`part_000`, lines 242-245): present when the search is a
series search and both the season and episode id segments are truthy; its components
are `parseInt` results (possibly `NaN`). -/
def sEpisodeInfo (type idStr : String) : Option (Option Int × Option Int) :=
  let parts := jsSplitChar ':' idStr
  if type = "series" && truthyStr parts[1]? && truthyStr parts[2]? then
    some (parseIntJS ((parts[1]?).getD ""), parseIntJS ((parts[2]?).getD ""))
  else none

/-- The personal files after the series episode filter (`part_000`, lines 260-269):
for a series search with an episode target, keep only files whose parsed season and
episode strictly equal the target. -/
def sPersonalFiles (env : SearchEnv) (type idStr : String) : List Cand :=
  match sEpisodeInfo type idStr with
  | some (se, ep) =>
    if type = "series" then
      env.personalFiles.filter (fun f =>
        let parsed := env.parse (strOrD f.name "")
        jsEqNum parsed.season se &&
          (match parsed.episode with
           | .num n => jsEqNum (some n) ep
           | _ => false))
    else env.personalFiles
  | none => env.personalFiles

/-- Category/resolution enrichment of one personal file (`part_000`, lines 272-281). -/
def enrichOne (env : SearchEnv) (f : Cand) : Cand :=
  let base := strOrD (strOr f.name f.Title) ""
  { f with
    category := some (env.qualityCategory base)
    resolution := some (getResolutionFromName base) }

/-- `enrichedPersonalFiles`: files without a truthy category get classified. -/
def sEnriched (env : SearchEnv) (type idStr : String) : List Cand :=
  (sPersonalFiles env type idStr).map (fun f =>
    match f.category with
    | some c => if c = "" then enrichOne env f else f
    | none => enrichOne env f)

/-- `personalByCategoryResolution` as a counting function (`part_000`, lines 284-293):
files with a falsy category or resolution are skipped. -/
def sPersonalCount (env : SearchEnv) (type idStr : String) : String → String → Nat :=
  fun cat res =>
    if cat = "" ∨ res = "" then 0
    else (sEnriched env type idStr).countP (fun f =>
      f.category == some cat && f.resolution == some res)

/-- `personalByCategory` as a counting function (`part_000`, lines 284-293). -/
def sPersonalCatCount (env : SearchEnv) (type idStr : String) : String → Nat :=
  fun cat =>
    if cat = "" then 0
    else (sEnriched env type idStr).countP (fun f => f.category == some cat)

/-- The early-exit quota gate of this search (`personalHighResSatisfied`), over
personal counts alone. -/
def sGate (env : SearchEnv) (type idStr : String) : Bool :=
  isHighResSatisfied env.limits.lookup (sPersonalCount env type idStr)

/-- The strict season/episode gate applied to external torrents (`part_000`, lines
413-424). -/
def strictEpisodeGate (p : ParsedSE) (s e : Option Int) : Bool :=
  match p.season with
  | none => true
  | some ps =>
    match p.episode with
    | .noEp => jsEqNum (some ps) s
    | .num n => jsEqNum (some ps) s && jsEqNum (some n) e
    | .arr l =>
      jsEqNum (some ps) s &&
        jsEqNum (match l with | [] => some 0 | [x] => some x | _ => none) e

/-- One live verification of an external candidate through the provider oracles. -/
def liveCheckFor (env : SearchEnv) (t : Cand) : LiveCheckOutcome :=
  let key := jsStr t.InfoHash
  liveCheckHash (env.addResult key) (env.statusOf key) (env.filesOf key)

/-- The body of `searchRealDebridTorrents` past the id guard (`part_000`, lines
229-650), for a non-empty string id. -/
def searchMain (env : SearchEnv) (type idStr : String)
    (userLanguages : Option (List String)) : SearchTrace :=
  let parts := jsSplitChar ':' idStr
  let imdbId := parts.headD ""
  match env.meta with
  | none => { metaCalls := 1 }
  | some meta =>
    let selectedLanguages := userLanguages.getD []
    let episodeInfo := sEpisodeInfo type idStr
    let personalFiles := sPersonalFiles env type idStr
    let personalCount := sPersonalCount env type idStr
    let releaseKey := makeReleaseKey type imdbId episodeInfo
    let mongoCounts := getReleaseCounts env.mongo env.mongoTxFail "realdebrid" releaseKey
    let combinedByCategory : String → Nat := fun cat =>
      mongoCounts.byCategory cat + sPersonalCatCount env type idStr cat
    let combinedByCatRes : String → String → Nat := fun cat res =>
      mongoCounts.byCategoryResolution cat res + personalCount cat res
    if sGate env type idStr then
      { metaCalls := 1
        personalFetches := 1
        scraperCalls := 0
        liveCheckCalls := 0
        results := sortResults (personalFiles.map (fun t => formatCachedResult t true)) }
    else
      let scraperCalls :=
        (if selectedLanguages.isEmpty then 1 else selectedLanguages.length) * env.flags.count
      let combinedResults :=
        combineAndMarkResults personalFiles env.scraperOutputs env.isValidTorrentTitle
      let externalTorrents0 := combinedResults.filter (fun t => ¬ t.isPersonal)
      let externalTorrents1 :=
        match episodeInfo with
        | some (s, e) =>
          (externalTorrents0.filter env.matchesCandidateTitle).filter (fun t =>
            strictEpisodeGate (env.parse (strOrD (strOr t.Title t.name) "")) s e)
        | none => externalTorrents0
      let externalTorrents :=
        if type = "movie" then
          let m1 := externalTorrents1.filter (fun t =>
            let title := strOrD (strOr t.Title t.name) ""
            if env.isSeriesLikeTitle title then false
            else
              let p := env.parse title
              ¬ (p.season.isSome || p.seasons))
          if meta.year ≠ 0 then m1.filter env.filterByYear else m1
        else externalTorrents1
      let quotas : Quotas := ⟨combinedByCategory, combinedByCatRes⟩
      let cachedResults0 := env.papft externalTorrents quotas
      let nonCachedTorrents := externalTorrents.filter (fun t =>
        ¬ cachedResults0.any (fun c => c.InfoHash == t.InfoHash))
      let topNonCached :=
        (nonCachedTorrents.mergeSort (fun a b => decide (b.Seeders ≤ a.Seeders))).take 5
      let verifiedNonCached := topNonCached.filter (fun t => (liveCheckFor env t).result)
      let cachedResults :=
        cachedResults0 ++
          (if nonCachedTorrents.isEmpty then []
           else verifiedNonCached.map (fun t => { t with isCached := false }))
      let combined := personalFiles ++ cachedResults
      { metaCalls := 1
        personalFetches := 1
        scraperCalls := scraperCalls
        liveCheckCalls :=
          env.papftLiveChecks + (if nonCachedTorrents.isEmpty then 0 else topNonCached.length)
        results := sortResults (combined.map (fun t => formatCachedResult t t.isCached)) }

/-- `searchRealDebridTorrents(apiKey, type, id, userConfig)` (`part_000`, lines
224-660): the id guard (`!id || typeof id !== 'string'`) returns the empty list
before any external call. -/
def searchRealDebridTorrents (env : SearchEnv) (type : String) (id : JSVal)
    (userLanguages : Option (List String)) : SearchTrace :=
  match id with
  | .str s => if s = "" then {} else searchMain env type s userLanguages
  | _ => {}

/-!  Theorems. -/

/-- C2: for every per-category limit assignment and counts mapping, the quota gate
`isHighResSatisfied` is true iff every high-quality category's count at each of the
2160p and 1080p tiers meets or exceeds that category's limit (an absent limit reads as
0); in particular it holds for limits `Remux:2` with counts `Remux:{2160p:2,1080p:2}`,
and fails once the 1080p count drops to 1. -/
theorem isHighResSatisfied_characterization :
    (∀ (limits : String → Option Int) (counts : String → String → Nat),
        isHighResSatisfied limits counts = true ↔
          ∀ cat ∈ HQ_CATEGORIES, ∀ res ∈ HQ_RES,
            (limits cat).getD 0 ≤ (counts cat res : Int)) ∧
    isHighResSatisfied (fun cat => if cat = "Remux" then some 2 else none)
        (fun cat res => if cat = "Remux" && (res = "2160p" || res = "1080p") then 2 else 0)
      = true ∧
    isHighResSatisfied (fun cat => if cat = "Remux" then some 2 else none)
        (fun cat res =>
          if cat = "Remux" && res = "2160p" then 2
          else if cat = "Remux" && res = "1080p" then 1 else 0)
      = false := by
  refine ⟨fun limits counts => ?_, by decide, by decide⟩
  unfold isHighResSatisfied
  rw [List.all_eq_true]
  constructor
  · intro h cat hcat res hres
    have hc := h cat hcat
    cases hl : limits cat with
    | none =>
      simp only [hl, Option.getD_none]
      exact Int.ofNat_nonneg _
    | some l =>
      rw [hl] at hc
      have hc2 : (if l ≤ 0 then true
          else HQ_RES.all fun r => decide (l ≤ (counts cat r : Int))) = true := hc
      simp only [hl, Option.getD_some]
      by_cases h0 : l ≤ 0
      · exact le_trans h0 (Int.ofNat_nonneg _)
      · rw [if_neg h0] at hc2
        exact of_decide_eq_true (List.all_eq_true.mp hc2 res hres)
  · intro h cat hcat
    cases hl : limits cat with
    | none => rfl
    | some l =>
      show (if l ≤ 0 then true
          else HQ_RES.all fun r => decide (l ≤ (counts cat r : Int))) = true
      by_cases h0 : l ≤ 0
      · rw [if_pos h0]
      · rw [if_neg h0, List.all_eq_true]
        intro res hres
        have hcr := h cat hcat res hres
        rw [hl, Option.getD_some] at hcr
        exact decide_eq_true hcr

/-- C4: a candidate in a terminal-success status whose listing contains a junk-extension
file is classified as not cached, regardless of any valid video also present. -/
theorem liveCheckHash_junk_rejects (tid status : String) (files : List RdFile)
    (hterm : TERMINAL_STATUSES.contains status = true)
    (hjunk : files.any hasJunkExt = true) :
    (liveCheckHash (some tid) status files).result = false := by
  cases hv : files.any (fun f => isValidVideo f.path f.bytes (50 * 1024 * 1024)) <;>
      simp [liveCheckHash, hterm, hjunk, hv] <;> split <;> rfl

/-- Witness for C4: a `downloaded` torrent listing a `.rar` file next to a valid
1.2 GiB `.mkv` video is rejected. -/
theorem liveCheckHash_junk_rejects_witness :
    (liveCheckHash (some "T1") "downloaded"
        [⟨"Extras/pack.rar", 1000, true, 0⟩,
         ⟨"Movie.2160p.mkv", 1288490189, true, 1⟩]).result = false ∧
    isValidVideo "Movie.2160p.mkv" 1288490189 (50 * 1024 * 1024) = true :=
  ⟨liveCheckHash_junk_rejects "T1" "downloaded" _ (by decide) (by decide), by decide⟩

/-- C5: a candidate whose single status read yields a non-terminal value is classified
as not cached with exactly one status read and without inspecting the file listing. -/
theorem liveCheckHash_nonterminal_no_inspection (tid status : String) (files : List RdFile)
    (h : TERMINAL_STATUSES.contains status = false) :
    liveCheckHash (some tid) status files = ⟨false, 1, false⟩ := by
  unfold liveCheckHash
  rw [h]
  rfl

/-- Witness for C5: status `magnet_error` fails with one status read and no file
inspection, even with a perfectly valid video in the listing. -/
theorem liveCheckHash_nonterminal_no_inspection_witness :
    liveCheckHash (some "T1") "magnet_error" [⟨"Movie.1080p.mkv", 1288490189, true, 0⟩]
      = ⟨false, 1, false⟩ :=
  liveCheckHash_nonterminal_no_inspection "T1" "magnet_error" _ (by decide)

/-- C9: with the store disabled every operation returns its defined empty/false
result, and a transport failure during an upsert is caught and returned as failure. -/
theorem store_disabled_degrades (st : MongoState) (tx : Bool) (record : UpsertIn)
    (records : Option (List UpsertIn)) (service hash rk : String)
    (hashes : Option (List String)) (hdis : st.enabled = false) :
    (upsertCachedMagnet st tx record).1 = false ∧
    (upsertCachedMagnets st tx records).1 = false ∧
    getCachedHashes st service hashes = [] ∧
    getCachedRecord st service hash = none ∧
    getReleaseCounts st tx service rk = emptyCounts ∧
    (∀ (st2 : MongoState) (r2 : UpsertIn), (upsertCachedMagnet st2 true r2).1 = false) := by
  refine ⟨?_, ?_, ?_, ?_, ?_, ?_⟩
  · simp [upsertCachedMagnet, hdis]
  · cases records with
    | none => rfl
    | some rs => simp [upsertCachedMagnets, hdis]
  · simp [getCachedHashes, hdis]
  · simp [getCachedRecord, hdis]
  · simp [getReleaseCounts, hdis]
  · intro st2 r2
    unfold upsertCachedMagnet
    repeat' split
    all_goals first | rfl | simp_all

/-- Witness for C9 at a concrete disabled store. -/
theorem store_disabled_degrades_witness :
    (upsertCachedMagnet ⟨false, []⟩ false
        { service := some "realdebrid", hash := some "ABC" }).1 = false ∧
    getCachedHashes ⟨false, []⟩ "realdebrid" (some ["abc"]) = [] ∧
    getReleaseCounts ⟨false, []⟩ false "realdebrid" "movie:tt1" = emptyCounts :=
  ⟨(store_disabled_degrades ⟨false, []⟩ false
      { service := some "realdebrid", hash := some "ABC" } none "realdebrid" "abc"
      "movie:tt1" (some ["abc"]) rfl).1,
   (store_disabled_degrades ⟨false, []⟩ false
      { service := some "realdebrid", hash := some "ABC" } none "realdebrid" "abc"
      "movie:tt1" (some ["abc"]) rfl).2.2.1,
   (store_disabled_degrades ⟨false, []⟩ false
      { service := some "realdebrid", hash := some "ABC" } none "realdebrid" "abc"
      "movie:tt1" (some ["abc"]) rfl).2.2.2.2.1⟩

/-- C10: an id that is null, undefined, or not a string makes
`searchRealDebridTorrents` return the empty list with no metadata, personal-library,
producer, or provider call. -/
theorem searchRealDebrid_invalid_id (env : SearchEnv) (type : String)
    (langs : Option (List String)) (id : JSVal) (h : ∀ s, id ≠ JSVal.str s) :
    (searchRealDebridTorrents env type id langs).results = [] ∧
    (searchRealDebridTorrents env type id langs).metaCalls = 0 ∧
    (searchRealDebridTorrents env type id langs).personalFetches = 0 ∧
    (searchRealDebridTorrents env type id langs).scraperCalls = 0 ∧
    (searchRealDebridTorrents env type id langs).liveCheckCalls = 0 := by
  cases id with
  | str s => exact absurd rfl (h s)
  | null => exact ⟨rfl, rfl, rfl, rfl, rfl⟩
  | undef => exact ⟨rfl, rfl, rfl, rfl, rfl⟩
  | num n => exact ⟨rfl, rfl, rfl, rfl, rfl⟩
  | boolean b => exact ⟨rfl, rfl, rfl, rfl, rfl⟩

/-- A minimal concrete environment for the guard witnesses. -/
def envGuard : SearchEnv :=
  { meta := some ⟨"Some Movie", 2020⟩
    personalFiles := [{ name := some "Some.Movie.2020.1080p.mkv", size := 1, hash := some "aa" }]
    mongo := ⟨false, []⟩
    parse := fun _ => {}
    qualityCategory := fun _ => "Other" }

/-- Witness for C10: a null id produces the all-zero trace. -/
theorem searchRealDebrid_invalid_id_witness :
    (searchRealDebridTorrents envGuard "movie" JSVal.null none).results = [] ∧
    (searchRealDebridTorrents envGuard "movie" JSVal.null none).metaCalls = 0 :=
  ⟨(searchRealDebrid_invalid_id envGuard "movie" none JSVal.null
      (fun s h => JSVal.noConfusion h)).1,
   (searchRealDebrid_invalid_id envGuard "movie" none JSVal.null
      (fun s h => JSVal.noConfusion h)).2.1⟩

/-- The pack loop counts one result per increment of `inspectedCount`: if the
accumulated result count equals the running counter and is within the cap, it stays
within the cap. -/
theorem packLoop_length_le (env : PackEnv) (m : Nat) (season episode : Int) :
    ∀ (hashes : List String) (count : Nat) (st : PackState),
      st.results.length = count → count ≤ m →
      (packLoop env m season episode hashes count st).results.length ≤ m := by
  intro hashes
  induction hashes with
  | nil =>
    intro count st hlen hle
    unfold packLoop
    omega
  | cons h rest ih =>
    intro count st hlen hle
    unfold packLoop
    by_cases hcap : m ≤ count
    · rw [if_pos hcap]
      omega
    · rw [if_neg hcap]
      cases hf : env.fetch h with
      | throws =>
        dsimp only
        exact ih count _ hlen hle
      | noId =>
        dsimp only
        exact ih count _ hlen hle
      | noFiles =>
        dsimp only
        exact ih count _ hlen hle
      | files filename torrentId fs =>
        dsimp only
        cases hm : fs.filter (packFileMatches env season episode) with
        | nil =>
          dsimp only
          exact ih count _ hlen hle
        | cons f0 fsRest =>
          dsimp only
          refine ih (count + 1) _ ?_ (by omega)
          simp [hlen]

/-- If the pack loop leaves some hash unexamined, it is because the counter hit the
cap, so exactly `m` results were produced. -/
theorem packLoop_stop (env : PackEnv) (m : Nat) (season episode : Int) :
    ∀ (hashes : List String) (count : Nat) (st : PackState),
      st.results.length = count → count ≤ m →
      (packLoop env m season episode hashes count st).examined.length
          < st.examined.length + hashes.length →
      (packLoop env m season episode hashes count st).results.length = m := by
  intro hashes
  induction hashes with
  | nil =>
    intro count st hlen hle hexam
    unfold packLoop at hexam
    simp at hexam
  | cons h rest ih =>
    intro count st hlen hle hexam
    unfold packLoop at hexam ⊢
    by_cases hcap : m ≤ count
    · rw [if_pos hcap]
      omega
    · rw [if_neg hcap]
      rw [if_neg hcap] at hexam
      cases hf : env.fetch h with
      | throws =>
        rw [hf] at hexam
        dsimp only at hexam ⊢
        refine ih count _ hlen hle ?_
        simp only [List.length_append, List.length_cons, List.length_singleton] at hexam ⊢
        omega
      | noId =>
        rw [hf] at hexam
        dsimp only at hexam ⊢
        refine ih count _ hlen hle ?_
        simp only [List.length_append, List.length_cons, List.length_singleton] at hexam ⊢
        omega
      | noFiles =>
        rw [hf] at hexam
        dsimp only at hexam ⊢
        refine ih count _ hlen hle ?_
        simp only [List.length_append, List.length_cons, List.length_singleton] at hexam ⊢
        omega
      | files filename torrentId fs =>
        rw [hf] at hexam
        dsimp only at hexam ⊢
        cases hm : fs.filter (packFileMatches env season episode) with
        | nil =>
          rw [hm] at hexam
          dsimp only at hexam ⊢
          refine ih count _ hlen hle ?_
          simp only [List.length_append, List.length_cons, List.length_singleton] at hexam ⊢
          omega
        | cons f0 fsRest =>
          rw [hm] at hexam
          dsimp only at hexam ⊢
          refine ih (count + 1) _ (by simp [hlen]) (by omega) ?_
          simp only [List.length_append, List.length_cons, List.length_singleton] at hexam ⊢
          omega

/-- C6: pack inspection never records more than the configured cap (default 3) of
packs, and if some pack hashes were left unexamined then the cap was reached; the loop
always returns normally. -/
theorem batchCheckSeasonPacks_cap (env : PackEnv) (cfg : Option Nat)
    (season episode : Int) (hashes : List String) :
    (batchCheckSeasonPacks env cfg season episode hashes).results.length ≤ packCap cfg ∧
    ((batchCheckSeasonPacks env cfg season episode hashes).examined.length < hashes.length →
      (batchCheckSeasonPacks env cfg season episode hashes).results.length = packCap cfg) := by
  refine ⟨packLoop_length_le env (packCap cfg) season episode hashes 0 {} rfl (Nat.zero_le _),
    fun hlt => packLoop_stop env (packCap cfg) season episode hashes 0 {} rfl (Nat.zero_le _)
      (by simpa using hlt)⟩

/-- A pack environment where every hash yields a matching episode file. -/
def packEnvW : PackEnv :=
  { fetch := fun _ =>
      .files "Show.S01.1080p.WEB-DL" "TID1" [⟨"Show.S01E02.1080p.mkv", 1000000000, true, 7⟩]
    parseSE := fun _ => { season := some 1, episode := .num 2 } }

/-- Witness for C6: with the default cap and five all-matching pack hashes, exactly 3
packs are recorded and only 3 hashes are examined. -/
theorem batchCheckSeasonPacks_cap_witness :
    (batchCheckSeasonPacks packEnvW none 1 2 ["h1", "h2", "h3", "h4", "h5"]).results.length
        = 3 ∧
    (batchCheckSeasonPacks packEnvW none 1 2 ["h1", "h2", "h3", "h4", "h5"]).examined.length
        = 3 :=
  ⟨(batchCheckSeasonPacks_cap packEnvW none 1 2 ["h1", "h2", "h3", "h4", "h5"]).2
      (by decide),
   by decide⟩

/-- Replacing the value at an existing key puts the new pair at the first position
bearing that key. -/
theorem find_map_replace_hit (acc : List (Option String × Cand)) (k0 : Option String)
    (v0 : Cand) (hmem : acc.any (fun p => p.1 == k0) = true) :
    (acc.map (fun p => if p.1 == k0 then (k0, v0) else p)).find? (fun q => q.1 == k0)
      = some (k0, v0) := by
  induction acc with
  | nil => simp at hmem
  | cons p ps ih =>
    by_cases hp : (p.1 == k0) = true
    · simp only [List.map_cons, if_pos hp]
      simp [List.find?_cons]
    · have hp2 : (p.1 == k0) = false := by simpa using hp
      simp only [List.map_cons, if_neg hp]
      simp only [List.find?_cons, hp2]
      refine ih ?_
      simp only [List.any_cons, hp2, Bool.false_or] at hmem
      exact hmem

/-- Replacing the value at key `k0` leaves lookups at any other key unchanged. -/
theorem find_map_replace_miss (acc : List (Option String × Cand)) (k0 k : Option String)
    (v0 : Cand) (hk : ¬ k0 = k) :
    (acc.map (fun p => if p.1 == k0 then (k0, v0) else p)).find? (fun q => q.1 == k)
      = acc.find? (fun q => q.1 == k) := by
  induction acc with
  | nil => rfl
  | cons p ps ih =>
    by_cases hp : (p.1 == k0) = true
    · have hp1 : p.1 = k0 := by simpa using hp
      have hk0k : (k0 == k) = false := by simpa using hk
      have hpk : (p.1 == k) = false := by rw [hp1]; exact hk0k
      simp only [List.map_cons, if_pos hp, List.find?_cons, hk0k, hpk]
      exact ih
    · simp only [List.map_cons, if_neg hp]
      by_cases hq : (p.1 == k) = true
      · simp only [List.find?_cons, hq]
      · have hq2 : (p.1 == k) = false := by simpa using hq
        simp only [List.find?_cons, hq2]
        exact ih

/-- Lookup after one JavaScript `Map.set`: the inserted key now maps to the new value,
other keys are untouched. -/
theorem jsMapInsert_find (acc : List (Option String × Cand)) (k0 k : Option String)
    (v0 : Cand) :
    (jsMapInsert acc k0 v0).find? (fun q => q.1 == k)
      = if k0 = k then some (k0, v0) else acc.find? (fun q => q.1 == k) := by
  unfold jsMapInsert
  by_cases hmem : acc.any (fun p => p.1 == k0) = true
  · rw [if_pos hmem]
    by_cases hk : k0 = k
    · subst hk
      rw [if_pos rfl]
      exact find_map_replace_hit acc k0 v0 hmem
    · rw [if_neg hk]
      exact find_map_replace_miss acc k0 k v0 hk
  · rw [if_neg hmem, List.find?_append]
    by_cases hk : k0 = k
    · subst hk
      have hnone : acc.find? (fun q => q.1 == k0) = none := by
        rw [List.find?_eq_none]
        intro p hp
        intro hcontra
        exact hmem (List.any_eq_true.mpr ⟨p, hp, hcontra⟩)
      rw [hnone, if_pos rfl]
      simp [List.find?_cons]
    · rw [if_neg hk]
      have hkk : (k0 == k) = false := by simpa using hk
      have hsingle : List.find? (fun q => q.1 == k) [(k0, v0)] = none := by
        simp [List.find?_cons, hkk]
      rw [hsingle, Option.or_none]

/-- Folding JavaScript `Map.set` over a pair list: a key's final binding is its last
occurrence in the processed list, falling back to the accumulator. -/
theorem foldl_jsMap_find (l : List (Option String × Cand)) :
    ∀ (acc : List (Option String × Cand)) (k : Option String),
      (l.foldl (fun a kv => jsMapInsert a kv.1 kv.2) acc).find? (fun q => q.1 == k)
        = (l.reverse.find? (fun q => q.1 == k)).or (acc.find? (fun q => q.1 == k)) := by
  induction l with
  | nil => intro acc k; simp
  | cons kv rest ih =>
    intro acc k
    simp only [List.foldl_cons, List.reverse_cons, List.find?_append]
    rw [ih (jsMapInsert acc kv.1 kv.2) k, jsMapInsert_find acc kv.1 k kv.2]
    by_cases hk : kv.1 = k
    · subst hk
      rw [if_pos rfl]
      have h1 : List.find? (fun q => q.1 == kv.1) [kv] = some kv := by
        simp [List.find?_cons]
      rw [h1]
      cases hrev : rest.reverse.find? (fun q => q.1 == kv.1) with
      | none => simp
      | some w => simp
    · rw [if_neg hk]
      have hkk : (kv.1 == k) = false := by simpa using hk
      have h1 : List.find? (fun q => q.1 == k) [kv] = none := by
        simp [List.find?_cons, hkk]
      rw [h1, Option.or_none]

/-- Keys reachable in the accumulator stay unique through one `Map.set`. -/
theorem jsMapInsert_keys_nodup (acc : List (Option String × Cand)) (k0 : Option String)
    (v0 : Cand) (hnd : (acc.map Prod.fst).Nodup) :
    ((jsMapInsert acc k0 v0).map Prod.fst).Nodup := by
  unfold jsMapInsert
  by_cases hmem : acc.any (fun p => p.1 == k0) = true
  · rw [if_pos hmem]
    have hkeys : (acc.map (fun p => if p.1 == k0 then (k0, v0) else p)).map Prod.fst
        = acc.map Prod.fst := by
      rw [List.map_map]
      refine List.map_congr_left ?_
      intro p hp
      by_cases hpk : (p.1 == k0) = true
      · simp only [Function.comp_apply, if_pos hpk]
        exact (by simpa using hpk : p.1 = k0).symm
      · simp only [Function.comp_apply, if_neg hpk]
    rw [hkeys]
    exact hnd
  · rw [if_neg hmem, List.map_append]
    rw [List.nodup_append]
    refine ⟨hnd, by simp, ?_⟩
    intro x hx
    simp only [List.map_cons, List.map_nil, List.mem_singleton]
    intro hxk
    subst hxk
    rcases List.mem_map.mp hx with ⟨p, hp, hpk⟩
    exact hmem (List.any_eq_true.mpr ⟨p, hp, by simp [hpk]⟩)

/-- The folded `Map` has pairwise-distinct keys. -/
theorem foldl_jsMap_nodup (l : List (Option String × Cand)) :
    ∀ (acc : List (Option String × Cand)), (acc.map Prod.fst).Nodup →
      ((l.foldl (fun a kv => jsMapInsert a kv.1 kv.2) acc).map Prod.fst).Nodup := by
  induction l with
  | nil => intro acc h; exact h
  | cons kv rest ih =>
    intro acc h
    exact ih _ (jsMapInsert_keys_nodup acc kv.1 kv.2 h)

/-- Two external candidates sharing the infohash `abc` but with different titles. -/
def candA : Cand := { Title := some "Movie.2160p.WEB-DL.GroupA", InfoHash := some "abc" }

/-- See `candA`. -/
def candB : Cand := { Title := some "Movie.2160p.WEB-DL.GroupB", InfoHash := some "abc" }

/-- C3 counterexample: with two producers each contributing one candidate for the same
infohash, `combineAndMarkResults` keeps the second (later) candidate, not the first,
refuting "first occurrence wins". -/
theorem combineAndMarkResults_first_wins_counterexample :
    combineAndMarkResults [] [[candA], [candB]] (fun _ => true) = [candB] ∧
    candA ≠ candB ∧
    combineAndMarkResults [] [[candA], [candB]] (fun _ => true) ≠ [candA] := by
  refine ⟨by decide, by decide, by decide⟩

/-- C3 (amended): the `Map`-based deduplication keeps, for each infohash key, the
**last** occurrence in the concatenated producer output (JavaScript `Map.set`
overwrites the value for an existing key), placed at the first occurrence's position;
each key appears at most once. -/
theorem jsMap_dedup_last_occurrence_wins (l : List (Option String × Cand))
    (k : Option String) :
    (jsMapEntries l).find? (fun q => q.1 == k) = l.reverse.find? (fun q => q.1 == k) ∧
    ((jsMapEntries l).map Prod.fst).Nodup := by
  constructor
  · have h := foldl_jsMap_find l [] k
    simpa [jsMapEntries] using h
  · exact foldl_jsMap_nodup l [] (by simp)

/-- An enabled store holding one lowercase record. -/
def stC8 : MongoState := ⟨true, [{ service := "realdebrid", hash := "abc" }]⟩

/-- C8 counterexample: a request for the uppercase hash `ABC` returns the stored
lowercase hash `abc`, which is not an element of the requested list — the returned set
is not a subset of the requested hashes as given. -/
theorem getCachedHashes_subset_counterexample :
    getCachedHashes stC8 "realdebrid" (some ["ABC"]) = ["abc"] ∧
    ("abc" ∈ (["ABC"] : List String) → False) := by
  refine ⟨by decide, by decide⟩

/-- Every member of a `getCachedHashes` result is the lowercase normalization of some
requested hash. -/
theorem getCachedHashes_mem_norm (st : MongoState) (service : String)
    (hashes : Option (List String)) :
    ∀ h ∈ getCachedHashes st service hashes,
      ∃ hs, hashes = some hs ∧ ∃ h0 ∈ hs, h = jsToLower h0 := by
  intro h hmem
  cases hashes with
  | none =>
    unfold getCachedHashes at hmem
    split at hmem <;> simp at hmem
  | some hs =>
    unfold getCachedHashes at hmem
    split at hmem
    · simp at hmem
    · split at hmem
      · simp at hmem
      · rename_i hs2 heq2
        split at hmem
        · simp at hmem
        · simp only [] at hmem
          split at hmem
          · simp at hmem
          · have hhs : hs = hs2 := by injection heq2
            subst hhs
            refine ⟨hs, rfl, ?_⟩
            rw [List.mem_dedup] at hmem
            rcases List.mem_map.mp hmem with ⟨r, hr, hrh⟩
            rcases List.mem_filter.mp hr with ⟨hrmem, hrcond⟩
            have hcontains := ((Bool.and_eq_true _ _).mp hrcond).2
            have hrlower : r.hash ∈ (hs.map jsToLower).filter (fun x => x ≠ "") := by
              simpa using hcontains
            rcases List.mem_filter.mp hrlower with ⟨hrlow, _⟩
            rcases List.mem_map.mp hrlow with ⟨h0, hh0, hh0low⟩
            exact ⟨h0, hh0, by rw [← hrh, ← hh0low]⟩

/-- C8 (amended): every hash returned by `getCachedHashes` is the lowercase
normalization of some requested hash (hence a subset of the requested hashes whenever
those are already lowercase), and an empty or absent input yields the empty set. -/
theorem getCachedHashes_subset_normalized (st : MongoState) (service : String)
    (hashes : Option (List String)) :
    (∀ h ∈ getCachedHashes st service hashes,
        ∃ hs, hashes = some hs ∧ ∃ h0 ∈ hs, h = jsToLower h0) ∧
    (hashes = none ∨ hashes = some [] → getCachedHashes st service hashes = []) ∧
    (∀ hs, hashes = some hs → (∀ h0 ∈ hs, jsToLower h0 = h0) →
      ∀ h ∈ getCachedHashes st service hashes, h ∈ hs) := by
  refine ⟨getCachedHashes_mem_norm st service hashes, ?_, ?_⟩
  · intro hcase
    cases hcase with
    | inl h => subst h; unfold getCachedHashes; simp
    | inr h => subst h; unfold getCachedHashes; simp
  · intro hs hhs hnorm h hmem
    rcases getCachedHashes_mem_norm st service hashes h hmem with ⟨hs2, hhs2, h0, hh0, hlow⟩
    rw [hhs] at hhs2
    cases hhs2
    rw [hlow, hnorm h0 hh0]
    exact hh0

/-- Witness for C8 (amended) on the concrete store `stC8`. -/
theorem getCachedHashes_subset_normalized_witness :
    getCachedHashes stC8 "realdebrid" none = [] ∧ ("abc" : String) ∈ ["abc"] :=
  ⟨(getCachedHashes_subset_normalized stC8 "realdebrid" none).2.1 (Or.inl rfl),
   (getCachedHashes_subset_normalized stC8 "realdebrid" (some ["abc"])).2.2 ["abc"] rfl
      (by decide) "abc" (by decide)⟩

/-- The sort comparator is transitive. -/
theorem rdSortLE_trans (a b c : FormattedResult) (hab : rdSortLE a b = true)
    (hbc : rdSortLE b c = true) : rdSortLE a c = true := by
  unfold rdSortLE at *
  by_cases h1 : resRankOfName a.name = resRankOfName b.name
  · by_cases h2 : resRankOfName b.name = resRankOfName c.name
    · have h3 : resRankOfName a.name = resRankOfName c.name := h1.trans h2
      rw [if_neg (fun hc => hc h1)] at hab
      rw [if_neg (fun hc => hc h2)] at hbc
      rw [if_neg (fun hc => hc h3)]
      exact decide_eq_true (le_trans (of_decide_eq_true hbc) (of_decide_eq_true hab))
    · rw [if_pos h2] at hbc
      have h3 : ¬ (resRankOfName a.name = resRankOfName c.name) := by rw [h1]; exact h2
      rw [if_pos h3, h1]
      exact hbc
  · by_cases h2 : resRankOfName b.name = resRankOfName c.name
    · rw [if_pos h1] at hab
      have h3 : ¬ (resRankOfName a.name = resRankOfName c.name) := by rw [← h2]; exact h1
      rw [if_pos h3, ← h2]
      exact hab
    · rw [if_pos h1] at hab
      rw [if_pos h2] at hbc
      have hba := of_decide_eq_true hab
      have hcb := of_decide_eq_true hbc
      have h3 : ¬ (resRankOfName a.name = resRankOfName c.name) := by
        intro he
        have h1lt : resRankOfName b.name < resRankOfName a.name :=
          lt_of_le_of_ne hba (fun he2 => h1 he2.symm)
        have h2lt : resRankOfName c.name < resRankOfName b.name :=
          lt_of_le_of_ne hcb (fun he2 => h2 he2.symm)
        omega
      rw [if_pos h3]
      exact decide_eq_true (le_trans hcb hba)

/-- The sort comparator is total. -/
theorem rdSortLE_total (a b : FormattedResult) : (rdSortLE a b || rdSortLE b a) = true := by
  unfold rdSortLE
  by_cases h : resRankOfName a.name = resRankOfName b.name
  · rw [if_neg (fun hc => hc h), if_neg (fun hc => hc h.symm)]
    rcases Nat.le_total b.size a.size with hle | hle
    · rw [decide_eq_true hle]
      rfl
    · rw [decide_eq_true hle]
      simp
  · rw [if_pos h, if_pos (fun he => h he.symm)]
    rcases Nat.le_total (resRankOfName b.name) (resRankOfName a.name) with hle | hle
    · rw [decide_eq_true hle]
      rfl
    · rw [decide_eq_true hle]
      simp

/-- A 2160p result of 1 GB. -/
def fr2160 : FormattedResult :=
  { name := "Movie.2160p.WEB-DL.mkv", size := 1000000000, seeders := 10,
    url := "u1", sourceTag := "realdebrid", hash := "a1", tracker := "Cached",
    isPersonal := false, isCached := true }

/-- A 720p result of 5 GB. -/
def fr720 : FormattedResult :=
  { name := "Movie.720p.WEB-DL.mkv", size := 5000000000, seeders := 20,
    url := "u2", sourceTag := "realdebrid", hash := "a2", tracker := "Cached",
    isPersonal := false, isCached := true }

/-- C7: the final sort returns a permutation of its input ordered descending by the
resolution-rank table with ties broken by descending size; concretely, a 1 GB 2160p
candidate sorts before a 5 GB 720p candidate. -/
theorem sortResults_spec :
    (∀ l : List FormattedResult,
        (sortResults l).Perm l ∧
        List.Pairwise (fun a b =>
            resRankOfName b.name < resRankOfName a.name ∨
              (resRankOfName a.name = resRankOfName b.name ∧ b.size ≤ a.size))
          (sortResults l)) ∧
    sortResults [fr720, fr2160] = [fr2160, fr720] := by
  haveI : IsTrans FormattedResult rdLE := ⟨fun a b c => rdSortLE_trans a b c⟩
  haveI : IsTotal FormattedResult rdLE := ⟨fun a b => by
    have h := rdSortLE_total a b
    rcases Bool.or_eq_true_iff.mp h with h1 | h1
    · exact Or.inl h1
    · exact Or.inr h1⟩
  refine ⟨fun l => ⟨List.perm_insertionSort rdLE l, ?_⟩, by decide⟩
  have hs := List.sorted_insertionSort rdLE l
  refine hs.imp ?_
  intro a b h
  unfold rdLE rdSortLE at h
  by_cases heq : resRankOfName a.name = resRankOfName b.name
  · right
    refine ⟨heq, ?_⟩
    rw [if_neg (by omega)] at h
    exact of_decide_eq_true h
  · left
    rw [if_pos heq] at h
    have := of_decide_eq_true h
    omega

/-- C1: whenever the caller's personal candidates alone satisfy the high-res quota
gate, the comprehensive search returns immediately after the personal phase: no
producer is invoked, no live verification call is made, and the result is exactly the
personal candidates, formatted and sorted. -/
theorem personal_early_exit (env : SearchEnv) (type idStr : String)
    (langs : Option (List String)) (m : CinemetaMeta)
    (hid : ¬ idStr = "") (hmeta : env.meta = some m)
    (hgate : sGate env type idStr = true) :
    searchRealDebridTorrents env type (.str idStr) langs =
      { metaCalls := 1
        personalFetches := 1
        scraperCalls := 0
        liveCheckCalls := 0
        results := sortResults ((sPersonalFiles env type idStr).map
          (fun t => formatCachedResult t true)) } := by
  show (if idStr = "" then {} else searchMain env type idStr langs) = _
  rw [if_neg hid]
  unfold searchMain
  rw [hmeta]
  simp only [hgate, if_true]

/-- A concrete environment whose four personal Remux files meet the (lowered) limits
at both high-res tiers, while scrapers are enabled and external work is available. -/
def envEarly : SearchEnv :=
  { meta := some ⟨"Some Movie", 2020⟩
    personalFiles :=
      [{ name := some "Some.Movie.2020.2160p.Remux.mkv", size := 60000000000,
         hash := some "h1", category := some "Remux", resolution := some "2160p",
         isPersonal := true, isCached := true },
       { name := some "Some.Movie.2020.2160p.Remux.HDR.mkv", size := 61000000000,
         hash := some "h2", category := some "Remux", resolution := some "2160p",
         isPersonal := true, isCached := true },
       { name := some "Some.Movie.2020.1080p.Remux.mkv", size := 30000000000,
         hash := some "h3", category := some "Remux", resolution := some "1080p",
         isPersonal := true, isCached := true },
       { name := some "Some.Movie.2020.1080p.Remux.B.mkv", size := 31000000000,
         hash := some "h4", category := some "Remux", resolution := some "1080p",
         isPersonal := true, isCached := true }]
    mongo := ⟨false, []⟩
    parse := fun _ => {}
    qualityCategory := fun _ => "Other"
    flags := { jackett := true, torrentio := true }
    limits := { remux := 2, bluray := -1, webdl := -1 }
    scraperOutputs := [[{ Title := some "External.2160p.mkv", InfoHash := some "x1" }]]
    papftLiveChecks := 5 }

/-- Witness for C1: in `envEarly` the gate holds and the search makes zero producer
and zero verification calls, returning the sorted personal candidates. -/
theorem personal_early_exit_witness :
    sGate envEarly "movie" "tt1" = true ∧
    (searchRealDebridTorrents envEarly "movie" (.str "tt1") none).scraperCalls = 0 ∧
    (searchRealDebridTorrents envEarly "movie" (.str "tt1") none).liveCheckCalls = 0 ∧
    (searchRealDebridTorrents envEarly "movie" (.str "tt1") none).results =
      sortResults ((sPersonalFiles envEarly "movie" "tt1").map
        (fun t => formatCachedResult t true)) := by
  have h := personal_early_exit envEarly "movie" "tt1" none ⟨"Some Movie", 2020⟩
    (by decide) rfl (by decide)
  refine ⟨by decide, ?_, ?_, ?_⟩ <;> rw [h]

end DebridSearch
